import Mathlib

/-!
Verification development for the OpenSTT frontend (`src/App.tsx`) and the
spec-level components of its dictation pipeline.  The TypeScript code is
shallowly embedded: React state updates become explicit state-passing
functions, Tauri `invoke` results become explicit parameters, and JS objects
used as string-keyed maps become association lists.
-/

namespace OpenSTT

/-- `ModelInfo` record from `App.tsx` (fields in source order). -/
structure ModelInfo where
  id : String
  name : String
  size : String
  description : String
  downloadUrl : String
  downloaded : Bool
  localPath : Option String
  engine : String
deriving DecidableEq

/-- `MlxDependencyStatus` record from `App.tsx`. -/
structure MlxDependencyStatus where
  supported : Bool
  ready : Bool
  python : Option String
  venv : Bool
  mlxAudio : Bool
  message : Option String
deriving DecidableEq

/-- `DownloadProgressEvent` record from `App.tsx`.  `error` is `string | null`. -/
structure DownloadProgressEvent where
  modelId : String
  percent : Nat
  done : Bool
  error : Option String
deriving DecidableEq

/-- `DictationShortcut` record from `App.tsx`. -/
@[ext]
structure DictationShortcut where
  key : String
  modifiers : List String
deriving DecidableEq

/-- The relevant fields of a DOM `KeyboardEvent` as read by
`buildDictationShortcut`. -/
structure KeyboardEvent where
  code : String
  metaKey : Bool
  ctrlKey : Bool
  altKey : Bool
  shiftKey : Bool
deriving DecidableEq

/-- The JS `String.prototype.trim()` primitive: strip leading and trailing
whitespace. -/
def jsTrim (s : String) : String :=
  ⟨((s.data.dropWhile Char.isWhitespace).reverse.dropWhile Char.isWhitespace).reverse⟩

/-- The JS `String.prototype.toLowerCase()` primitive: lowercase every
character. -/
def jsToLower (s : String) : String :=
  ⟨s.data.map Char.toLower⟩

/-- The JS `String.prototype.startsWith()` primitive. -/
def jsStartsWith (s pre : String) : Bool :=
  pre.data.isPrefixOf s.data

/-- `isModifierKey` from `App.tsx` lines 125-135: membership of the key code
in the fixed list of modifier key codes. -/
def isModifierKey (code : String) : Bool :=
  ["AltLeft", "AltRight", "ShiftLeft", "ShiftRight", "ControlLeft",
    "ControlRight", "MetaLeft", "MetaRight"].contains code

/-- The fixed modifier order `["command", "control", "alt", "shift"]` used by
`normalizeDictationShortcut`. -/
def modifierOrder : List String := ["command", "control", "alt", "shift"]

/-- `normalizeDictationShortcut` from `App.tsx` lines 137-152.  A modifier key
as main key clears the modifier list; otherwise modifiers are trimmed,
lowercased, deduplicated (the JS `Set` is modelled by membership in the mapped
list) and re-emitted in the fixed `modifierOrder`. -/
def normalizeDictationShortcut (shortcut : DictationShortcut) : DictationShortcut :=
  if isModifierKey shortcut.key then
    { key := shortcut.key, modifiers := [] }
  else
    let normalized :=
      (shortcut.modifiers.map (fun value => jsToLower (jsTrim value))).filter
        (fun value => value != "")
    let ordered := modifierOrder.filter (fun value => normalized.contains value)
    { key := shortcut.key, modifiers := ordered }

/-- `buildDictationShortcut` from `App.tsx` lines 1163-1179: collect the held
modifiers (skipping the one equal to the main key) and normalize. -/
def buildDictationShortcut (event : KeyboardEvent) : DictationShortcut :=
  let key := event.code
  let modifiers :=
    (if event.metaKey && !(jsStartsWith key "Meta") then ["command"] else []) ++
    (if event.ctrlKey && !(jsStartsWith key "Control") then ["control"] else []) ++
    (if event.altKey && !(jsStartsWith key "Alt") then ["alt"] else []) ++
    (if event.shiftKey && !(jsStartsWith key "Shift") then ["shift"] else [])
  normalizeDictationShortcut { key := key, modifiers := modifiers }

/-! ### Streaming transcript reconciler (incremental mode)

The reconciler lives in the Rust backend, which is not part of the sources
here; it is modelled from the spec. -/

/-- Length of the longest common prefix of two character lists. -/
def commonPrefixLen : List Char → List Char → Nat
  | a :: as, b :: bs => if a = b then commonPrefixLen as bs + 1 else 0
  | _, _ => 0

/-- One delete/insert operation emitted by the reconciler: how many characters
are deleted from the end of the typed text, and the suffix then inserted. -/
structure ReconcileDelta where
  deletes : Nat
  inserted : List Char
deriving DecidableEq

/-- Modelled from the spec: the incremental-mode reconciliation step of the
Streaming Transcript Reconciler (Rust backend, not under the given sources).
On a revision, compute the longest common prefix between `typedText` and the
new `text`; delete characters from the end of `typedText` down to the prefix
length, then insert the suffix of the new text; update `typedText` to the new
text. -/
def reconcileStep (typed newText : List Char) : ReconcileDelta × List Char :=
  let p := commonPrefixLen typed newText
  (⟨typed.length - p, newText.drop p⟩, newText)

/-- Modelled from the spec: run the incremental reconciler over a sequence of
transcript revisions, returning the per-revision deltas and the final
`typedText`. -/
def runReconciler (typed : List Char) : List (List Char) → List ReconcileDelta × List Char
  | [] => ([], typed)
  | r :: rs =>
    let step := reconcileStep typed r
    let rest := runReconciler step.2 rs
    (step.1 :: rest.1, rest.2)

/-! ### Download progress tracking

The React state `downloadProgress : Record<string, number>` is modelled as an
association list from model id to percent, preserving JS object key order. -/

/-- JS object spread `{...prev, [modelId]: percent}`: an existing key keeps its
position and gets the new value; a new key is appended. -/
def setProgress : List (String × Nat) → String → Nat → List (String × Nat)
  | [], modelId, percent => [(modelId, percent)]
  | (k, v) :: rest, modelId, percent =>
    if k = modelId then (k, percent) :: rest
    else (k, v) :: setProgress rest modelId percent

/-- JS `delete next[modelId]`: drop every entry with that key. -/
def removeProgress (m : List (String × Nat)) (modelId : String) : List (String × Nat) :=
  m.filter (fun e => e.1 != modelId)

/-- Lookup of `downloadProgress[modelId]`. -/
def lookupProgress (m : List (String × Nat)) (modelId : String) : Option Nat :=
  (m.find? (fun e => e.1 == modelId)).map (fun e => e.2)

/-- `isAnyDownloading` from `App.tsx` line 633:
`Object.keys(downloadProgress).length > 0`. -/
def isAnyDownloading (m : List (String × Nat)) : Bool :=
  m.length != 0

/-- Result of one `download-progress` event in the listener of `App.tsx`
lines 998-1026: the updated progress map, the error surfaced via `setError`
(if any), and whether `refreshModels` was triggered. -/
structure DownloadEventOutcome where
  progress : List (String × Nat)
  surfacedError : Option String
  refreshed : Bool
deriving DecidableEq

/-- JS truthiness of a `string | null` value: `null` and the empty string are
falsy, every other string is truthy. -/
def jsTruthy : Option String → Bool
  | some s => s != ""
  | none => false

/-- The `download-progress` listener body from `App.tsx` lines 1003-1018:
on `done` the entry is deleted, the `error` is surfaced when truthy
(`if (error)` — a null or empty-string error is not surfaced) and
`refreshModels` runs; otherwise the entry is set to the reported percent. -/
def applyDownloadEvent (m : List (String × Nat)) (e : DownloadProgressEvent) :
    DownloadEventOutcome :=
  if e.done then
    { progress := removeProgress m e.modelId,
      surfacedError := if jsTruthy e.error then e.error else none,
      refreshed := true }
  else
    { progress := setProgress m e.modelId e.percent, surfacedError := none, refreshed := false }

/-- Result of `handleDownloadModel`: the updated progress map, whether
`download_model` was invoked, and the error message set (if any). -/
structure DownloadStartOutcome where
  progress : List (String × Nat)
  invoked : Bool
  errorMsg : Option String
deriving DecidableEq

/-- `handleDownloadModel` from `App.tsx` lines 1181-1199.  `t` is the
translation function, `mlxDeps` the (possibly null) runtime status,
`invokeError` the outcome of the `download_model` invocation (`none` =
success).  An MLX model with the runtime not ready sets the
runtime-required error and returns; otherwise an entry at 0 is created and,
if the invocation throws, removed again with the error surfaced. -/
def handleDownloadModel (t : String → String) (models : List ModelInfo)
    (mlxDeps : Option MlxDependencyStatus) (m : List (String × Nat))
    (modelId : String) (invokeError : Option String) : DownloadStartOutcome :=
  let model := models.find? (fun item => item.id == modelId)
  if ((model.map ModelInfo.engine == some "mlx") &&
      !((mlxDeps.map MlxDependencyStatus.ready).getD false)) then
    { progress := m, invoked := false, errorMsg := some (t "runtimeRequired") }
  else
    match invokeError with
    | none => { progress := setProgress m modelId 0, invoked := true, errorMsg := none }
    | some err =>
      { progress := removeProgress (setProgress m modelId 0) modelId,
        invoked := true, errorMsg := some err }

/-! ### Model refresh and the active-model fallback -/

/-- `refreshModels` from `App.tsx` lines 712-738, restricted to the
`activeModelId` it produces.  `list` and `active` are the results of the
`list_models` / `get_active_model` invocations; `setActive` is the
`set_active_model` backend call (`none` = the invocation threw).  When the
reported active model exists and is not downloaded, the code reassigns to the
first downloaded model if one exists (falling back to `active` if the backend
call throws); in every other branch `activeModelId` is set to `active`. -/
def refreshModels (list : List ModelInfo) (active : String)
    (setActive : String → Option String) : Option String :=
  match list.find? (fun m => m.id == active) with
  | some activeModel =>
    if !activeModel.downloaded then
      match list.find? (fun m => m.downloaded) with
      | some fallback =>
        match setActive fallback.id with
        | some next => some next
        | none => some active
      | none => some active
    else some active
  | none => some active

/-! ### Models page row rendering -/

/-- The action control rendered for one model row (`App.tsx` lines 2013-2076),
with its `disabled` flag where the source has one. -/
inductive RowAction where
  | activePill : RowAction
  | deleteBtn (confirmStage : Bool) (disabled : Bool) : RowAction
  | activateBtn (disabled : Bool) : RowAction
  | downloadBtn (disabled : Bool) : RowAction
deriving DecidableEq

/-- `downloadButtonDisabled`: the `disabled` expression of the
download/setup button, `App.tsx` lines 2062-2064. -/
def downloadButtonDisabled (m : List (String × Nat)) (mlxAction : Option String) : Bool :=
  isAnyDownloading m || mlxAction == some "setup"

/-- `modelRowAction`: the `model-actions` branch of the model row from
`App.tsx` lines 2013-2076, as a function of the React state it reads. -/
def modelRowAction (modelsEditing : Bool) (activeModelId : Option String)
    (deleteConfirmId : Option String) (modelAction : Option (String × String))
    (m : List (String × Nat)) (mlxAction : Option String)
    (model : ModelInfo) : RowAction :=
  let isActive := activeModelId == some model.id
  if model.downloaded then
    if modelsEditing then
      if isActive then .activePill
      else if deleteConfirmId == some model.id then .deleteBtn true modelAction.isSome
      else .deleteBtn false modelAction.isSome
    else if isActive then .activePill
    else .activateBtn modelAction.isSome
  else
    .downloadBtn (downloadButtonDisabled m mlxAction)

/-- `cloudModels` from `App.tsx` lines 857-878, parameterized by the
translation function `t`. -/
def cloudModels (t : String → String) : List ModelInfo :=
  [{ id := "elevenlabs:scribe_v2", name := t "scribeV2", size := "Cloud",
     description := t "scribeV2Desc", engine := "elevenlabs", downloaded := true,
     downloadUrl := "", localPath := none },
   { id := "elevenlabs:scribe_v2_realtime", name := t "scribeV2Realtime", size := "Cloud",
     description := t "scribeV2RealtimeDesc", engine := "elevenlabs", downloaded := true,
     downloadUrl := "", localPath := none }]

/-! ### Spec-modelled registry guards (backend commands not under the given
sources) -/

/-- Registry errors of the spec's error taxonomy used here. -/
inductive RegistryError where
  | ActiveModelInUse : RegistryError
  | NotDownloaded : RegistryError
deriving DecidableEq

/-- Modelled from the spec: `delete(modelId)` fails with `ActiveModelInUse`
unless the caller first reassigns the active model (the backend command
`delete_model` is not under the given sources). -/
def deleteModel (activeModelId : Option String) (modelId : String) :
    Except RegistryError Unit :=
  if activeModelId == some modelId then .error .ActiveModelInUse else .ok ()

/-- Modelled from the spec: `activate(modelId) -> Model` fails with
`NotDownloaded` if the model lacks a local artifact (the backend command
`set_active_model` is not under the given sources). -/
def activateModel (model : ModelInfo) : Except RegistryError ModelInfo :=
  if !model.downloaded then .error .NotDownloaded else .ok model

/-! ### Gateway start and port validation -/

/-- The result of the JS `Number(portInput)` conversion: an integer value, a
finite non-integer, or NaN.  `Number.isInteger` is true exactly on the first
case, and `portValid` checks the bounds only there (a non-integer fails the
`Number.isInteger` conjunct of `App.tsx` lines 678-680 outright). -/
inductive JsNumber where
  | int : Int → JsNumber
  | nonInt : JsNumber
  | nan : JsNumber
deriving DecidableEq

/-- `portValid` from `App.tsx` lines 678-680:
`Number.isInteger(parsedPort) && parsedPort > 0 && parsedPort < 65536`. -/
def portValid : JsNumber → Bool
  | .int n => decide (0 < n) && decide (n < 65536)
  | _ => false

/-- Outcome of `handleStart`: either `start_server` is invoked with the parsed
port, or the port error message is set and the function returns. -/
inductive StartOutcome where
  | invoked (port : JsNumber) : StartOutcome
  | portError (msg : String) : StartOutcome
deriving DecidableEq

/-- `handleStart` from `App.tsx` lines 1042-1064, restricted to its port
guard: on an invalid port it sets the error and returns before invoking
`start_server`; otherwise it invokes `start_server` with `parsedPort`. -/
def handleStart (parsedPort : JsNumber) : StartOutcome :=
  if portValid parsedPort then .invoked parsedPort
  else .portError "Port must be between 1 and 65535"

/-! ### Single-flight FIFO dictation queue

Modelled from the spec: the dictation queue lives in the Rust backend, which
is not under the given sources.  Chunks are identified by naturals; a state
records the full enqueue history, the waiting chunks, the in-flight
transcriptions and the delivered results. -/

/-- A state of the dictation queue.  `enqueued` is the ghost history of all
chunks in enqueue order. -/
structure QueueState where
  enqueued : List Nat
  pending : List Nat
  inFlight : List Nat
  delivered : List Nat
deriving DecidableEq

/-- The initial queue state: nothing enqueued, nothing in flight. -/
def QueueState.start : QueueState := ⟨[], [], [], []⟩

/-- Modelled from the spec: the transitions of the single-flight dictation
queue.  A chunk may be enqueued at any time; a transcription starts only when
none is in flight, taking the head of the pending queue; a completed
transcription delivers its result. -/
inductive QStep : QueueState → QueueState → Prop
  | enqueue (c : Nat) (s : QueueState) :
      QStep s ⟨s.enqueued ++ [c], s.pending ++ [c], s.inFlight, s.delivered⟩
  | start (s : QueueState) (c : Nat) (rest : List Nat) :
      s.inFlight = [] → s.pending = c :: rest →
      QStep s ⟨s.enqueued, rest, [c], s.delivered⟩
  | complete (s : QueueState) (c : Nat) :
      s.inFlight = [c] →
      QStep s ⟨s.enqueued, s.pending, [], s.delivered ++ [c]⟩

/-- The queue states reachable from the initial state. -/
inductive QReachable : QueueState → Prop
  | refl : QReachable QueueState.start
  | step {s t : QueueState} : QReachable s → QStep s t → QReachable t

/-! ### Concrete inputs used by counterexamples and witnesses -/

/-- A catalog entry that is not downloaded (e.g. the active model right after
its artifact was deleted). -/
def modelA : ModelInfo :=
  ⟨"a", "A", "1 GB", "d", "u", false, none, "whisper"⟩

/-- A downloaded catalog entry distinct from `modelA`. -/
def modelB : ModelInfo :=
  ⟨"b", "B", "1 GB", "d", "u", true, some "/p", "whisper"⟩

/-- An MLX catalog entry that is not downloaded. -/
def modelMlx : ModelInfo :=
  ⟨"m", "M", "2 GB", "d", "u", false, none, "mlx"⟩

/-- The first cloud model of `cloudModels` at the identity translation. -/
def cloudScribe : ModelInfo :=
  ⟨"elevenlabs:scribe_v2", "scribeV2", "Cloud", "scribeV2Desc", "", true, none,
    "elevenlabs"⟩

/-- A queue state with one chunk in flight, reachable by enqueueing chunk `5`
and starting its transcription. -/
def queueBusy : QueueState := ⟨[5], [], [5], []⟩

/-! ## Helper lemmas -/

/-- Replaying the non-shared suffix of the new text after the common prefix
reconstructs the new text. -/
theorem take_commonPrefixLen_append_drop (as bs : List Char) :
    as.take (commonPrefixLen as bs) ++ bs.drop (commonPrefixLen as bs) = bs := by
  induction as generalizing bs with
  | nil => simp [commonPrefixLen]
  | cons a as ih =>
    cases bs with
    | nil => simp [commonPrefixLen]
    | cons b bs =>
      by_cases h : a = b
      · simp [commonPrefixLen, h, ih]
      · simp [commonPrefixLen, h]

/-- The common prefix never exceeds the typed text. -/
theorem commonPrefixLen_le_length (as bs : List Char) :
    commonPrefixLen as bs ≤ as.length := by
  induction as generalizing bs with
  | nil => simp [commonPrefixLen]
  | cons a as ih =>
    cases bs with
    | nil => simp [commonPrefixLen]
    | cons b bs =>
      by_cases h : a = b
      · simpa [commonPrefixLen, h] using ih bs
      · simp [commonPrefixLen, h]

/-- After deleting a key, looking it up yields nothing. -/
theorem lookupProgress_removeProgress (m : List (String × Nat)) (modelId : String) :
    lookupProgress (removeProgress m modelId) modelId = none := by
  have h : (removeProgress m modelId).find? (fun e => e.1 == modelId) = none := by
    rw [List.find?_eq_none]
    intro x hx
    have := (List.mem_filter.mp hx).2
    simpa using this
  simp [lookupProgress, h]

/-- After setting a key, looking it up yields the set value. -/
theorem lookupProgress_setProgress (m : List (String × Nat)) (modelId : String) (p : Nat) :
    lookupProgress (setProgress m modelId p) modelId = some p := by
  induction m with
  | nil => simp [setProgress, lookupProgress]
  | cons e rest ih =>
    by_cases h : e.1 = modelId
    · simp [setProgress, lookupProgress, h]
    · have hb : (e.1 == modelId) = false := by simp [h]
      simp only [setProgress, if_neg h]
      simp only [lookupProgress] at ih ⊢
      rw [List.find?_cons, hb]
      exact ih

/-- Setting a fresh key and deleting it again restores the original map. -/
theorem removeProgress_setProgress (m : List (String × Nat)) (modelId : String) (p : Nat)
    (h : lookupProgress m modelId = none) :
    removeProgress (setProgress m modelId p) modelId = m := by
  induction m with
  | nil => simp [setProgress, removeProgress]
  | cons e rest ih =>
    have hkey : ¬ e.1 = modelId := by
      intro hk
      have hb : (e.1 == modelId) = true := by simp [hk]
      simp only [lookupProgress] at h
      rw [List.find?_cons, hb] at h
      simp at h
    have hb : (e.1 == modelId) = false := by simp [hkey]
    have hrest : lookupProgress rest modelId = none := by
      simp only [lookupProgress] at h ⊢
      rwa [List.find?_cons, hb] at h
    simp only [setProgress, if_neg hkey]
    simpa [removeProgress, hkey] using ih hrest

/-- Normalization never changes the key. -/
theorem normalize_key_eq (s : DictationShortcut) :
    (normalizeDictationShortcut s).key = s.key := by
  by_cases h : isModifierKey s.key <;> simp [normalizeDictationShortcut, h]

/-- The modifier list produced in the non-modifier-key branch. -/
theorem normalize_modifiers_of_not_modifier (s : DictationShortcut)
    (h : isModifierKey s.key = false) :
    (normalizeDictationShortcut s).modifiers
      = modifierOrder.filter (fun v =>
          ((s.modifiers.map (fun value => jsToLower (jsTrim value))).filter
            (fun value => value != "")).contains v) := by
  simp [normalizeDictationShortcut, h]

/-- The four canonical modifier names are fixed by trimming and lowercasing
and are nonempty. -/
theorem modifierOrder_canonical :
    ∀ v ∈ modifierOrder, jsToLower (jsTrim v) = v ∧ (v != "") = true ∧ jsToLower v = v := by
  decide

/-- Normalized modifier lists pass through normalization unchanged. -/
theorem normalize_idem (s : DictationShortcut) :
    normalizeDictationShortcut (normalizeDictationShortcut s)
      = normalizeDictationShortcut s := by
  by_cases h : isModifierKey s.key
  · simp [normalizeDictationShortcut, h]
  · have hf : isModifierKey s.key = false := by simpa using h
    have hmods := normalize_modifiers_of_not_modifier s hf
    have hsub : ∀ x ∈ (normalizeDictationShortcut s).modifiers, x ∈ modifierOrder := by
      intro x hx
      rw [hmods] at hx
      exact (List.mem_filter.mp hx).1
    have hmap : (normalizeDictationShortcut s).modifiers.map
        (fun value => jsToLower (jsTrim value)) = (normalizeDictationShortcut s).modifiers := by
      rw [List.map_congr_left (fun a ha => (modifierOrder_canonical a (hsub a ha)).1)]
      exact List.map_id _
    have hfilter : ((normalizeDictationShortcut s).modifiers.map
          (fun value => jsToLower (jsTrim value))).filter (fun value => value != "")
        = (normalizeDictationShortcut s).modifiers := by
      rw [hmap]
      exact List.filter_eq_self.mpr
        (fun a ha => (modifierOrder_canonical a (hsub a ha)).2.1)
    have hkey2 : isModifierKey (normalizeDictationShortcut s).key = false := by
      rw [normalize_key_eq]; exact hf
    apply DictationShortcut.ext
    · rw [normalize_key_eq, normalize_key_eq]
    · rw [normalize_modifiers_of_not_modifier _ hkey2, hfilter]
      rw [hmods]
      apply List.filter_congr
      intro v hv
      by_cases hp : ((s.modifiers.map (fun value => jsToLower (jsTrim value))).filter
          (fun value => value != "")).contains v = true
      · rw [hp]
        exact List.elem_iff.mpr (List.mem_filter.mpr ⟨hv, hp⟩)
      · have hp' : ((s.modifiers.map (fun value => jsToLower (jsTrim value))).filter
            (fun value => value != "")).contains v = false := by simpa using hp
        rw [hp']
        cases hb : (modifierOrder.filter (fun v =>
            ((s.modifiers.map (fun value => jsToLower (jsTrim value))).filter
              (fun value => value != "")).contains v)).contains v with
        | false => rfl
        | true => exact absurd (List.mem_filter.mp (List.elem_iff.mp hb)).2 hp

/-! ## Claims -/

/-- C2 (counterexample): on the step from typed text "hi there" to the
revision "hello there" the incremental reconciler deletes 7 characters, not
the 2 the claim asserts (the longest common prefix is "h", not "hel"). -/
theorem reconcileStep_example_not_two_deletes :
    (reconcileStep ("hi there".data) ("hello there".data)).1.deletes = 7 ∧
    commonPrefixLen ("hi there".data) ("hello there".data) = 1 ∧
    ¬ (reconcileStep ("hi there".data) ("hello there".data)).1.deletes = 2 := by
  decide

/-- C2 (amended): on each revision the reconciler deletes exactly
(length of typedText minus the longest-common-prefix length) characters from
the end, inserts the suffix of the new text after the common prefix
(reconstructing the new text exactly), and updates typedText to the new text;
on the revision sequence ["hi", "hi there", "hello there"] the per-step delete
counts are 0, 0 and 7 (common prefix "h" on the last step) and the final
typedText is "hello there". -/
theorem reconciler_incremental_spec :
    (∀ typed newText : List Char,
      (reconcileStep typed newText).2 = newText ∧
      (reconcileStep typed newText).1.deletes
        = typed.length - commonPrefixLen typed newText ∧
      typed.take (commonPrefixLen typed newText)
          ++ (reconcileStep typed newText).1.inserted = newText) ∧
    (runReconciler [] ["hi".data, "hi there".data, "hello there".data]).1.map
        ReconcileDelta.deletes = [0, 0, 7] ∧
    (runReconciler [] ["hi".data, "hi there".data, "hello there".data]).2
      = "hello there".data := by
  refine ⟨fun typed newText => ⟨rfl, rfl, take_commonPrefixLen_append_drop typed newText⟩,
    by decide, by decide⟩

/-- C3: every reachable state of the single-flight dictation queue has at most
one transcription in flight, and the delivered results followed by the
in-flight chunk and the pending chunks are exactly the chunks in enqueue
order — so chunks are consumed FIFO and results are delivered in enqueue
order. -/
theorem queue_single_flight_fifo (s : QueueState) (h : QReachable s) :
    s.inFlight.length ≤ 1 ∧
    s.delivered ++ (s.inFlight ++ s.pending) = s.enqueued := by
  induction h with
  | refl => exact ⟨by simp [QueueState.start], by simp [QueueState.start]⟩
  | step hr hs ih =>
    cases hs with
    | enqueue c u =>
      refine ⟨ih.1, ?_⟩
      have h2 := ih.2
      simp only [← List.append_assoc] at h2 ⊢
      rw [h2]
    | start u c rest hif hp =>
      refine ⟨by simp, ?_⟩
      have h2 := ih.2
      rw [hif, hp] at h2
      simpa using h2
    | complete u c hif =>
      refine ⟨by simp, ?_⟩
      have h2 := ih.2
      rw [hif] at h2
      simp only [← List.append_assoc] at h2 ⊢
      simpa using h2

/-- C3 (witness): the concrete state reached by enqueueing chunk 5 and
starting its transcription satisfies the invariant. -/
theorem queue_single_flight_fifo_witness :
    queueBusy.inFlight.length ≤ 1 ∧
    queueBusy.delivered ++ (queueBusy.inFlight ++ queueBusy.pending)
      = queueBusy.enqueued :=
  queue_single_flight_fifo queueBusy
    (QReachable.step
      (QReachable.step QReachable.refl (QStep.enqueue 5 QueueState.start))
      (QStep.start ⟨[5], [5], [], []⟩ 5 [] rfl rfl))

/-- C8: dictation-shortcut normalization is canonical and idempotent.  If the
key is itself a modifier key the modifier list is emptied; otherwise the
result is duplicate-free, a sublist of the fixed order
[command, control, alt, shift], and all lowercase; normalization is
idempotent; and every shortcut built by `buildDictationShortcut` is already
canonical. -/
theorem shortcut_normalization_canonical (s : DictationShortcut) :
    (isModifierKey s.key = true →
      normalizeDictationShortcut s = { key := s.key, modifiers := [] }) ∧
    (isModifierKey s.key = false →
      (normalizeDictationShortcut s).modifiers.Nodup ∧
      List.Sublist (normalizeDictationShortcut s).modifiers modifierOrder ∧
      ∀ x ∈ (normalizeDictationShortcut s).modifiers, jsToLower x = x) ∧
    normalizeDictationShortcut (normalizeDictationShortcut s)
      = normalizeDictationShortcut s ∧
    ∀ e : KeyboardEvent,
      normalizeDictationShortcut (buildDictationShortcut e) = buildDictationShortcut e := by
  refine ⟨fun h => by simp [normalizeDictationShortcut, h], fun h => ?_,
    normalize_idem s, fun e => ?_⟩
  · have hmods := normalize_modifiers_of_not_modifier s h
    refine ⟨?_, ?_, ?_⟩
    · rw [hmods]
      exact List.Nodup.filter _ (by decide)
    · rw [hmods]
      exact List.filter_sublist _
    · intro x hx
      rw [hmods] at hx
      exact (modifierOrder_canonical x (List.mem_filter.mp hx).1).2.2
  · simp only [buildDictationShortcut]
    exact normalize_idem _

/-- C8 (witness): normalization at two concrete shortcuts — a modifier key as
main key clears the modifiers, and a normalized list for a regular key is
duplicate-free. -/
theorem shortcut_normalization_canonical_witness :
    normalizeDictationShortcut ⟨"AltLeft", ["shift"]⟩ = ⟨"AltLeft", []⟩ ∧
    (normalizeDictationShortcut ⟨"KeyA", [" SHIFT", "command", "shift", ""]⟩).modifiers.Nodup :=
  ⟨(shortcut_normalization_canonical ⟨"AltLeft", ["shift"]⟩).1 (by decide),
    ((shortcut_normalization_canonical
      ⟨"KeyA", [" SHIFT", "command", "shift", ""]⟩).2.1 (by decide)).1⟩

/-- C1 (counterexample): when the reported active model is the only model and
is not downloaded (the state after deleting the only downloaded model),
`refreshModels` keeps `activeModelId = some "a"` — it does not become
`null`. -/
theorem refreshModels_no_fallback_not_null :
    modelA.downloaded = false ∧
    refreshModels [modelA] "a" (fun modelId => some modelId) = some "a" ∧
    ¬ refreshModels [modelA] "a" (fun modelId => some modelId) = none := by
  decide

/-- C1 (amended): after `refreshModels`, when the reported active model is not
downloaded and some downloaded model exists, the active model id is reassigned
to a downloaded model; when no downloaded model exists, `activeModelId` keeps
the reported (undownloaded) active id rather than becoming null; and when the
reported active model is still downloaded (in particular after deleting a
non-active model) or is not in the list, the active model id is unchanged. -/
theorem refreshModels_fallback (list : List ModelInfo) (active : String)
    (setActive : String → Option String)
    (hset : ∀ modelId, setActive modelId = some modelId) :
    (∀ am fb, list.find? (fun m => m.id == active) = some am →
      am.downloaded = false →
      list.find? (fun m => m.downloaded) = some fb →
      refreshModels list active setActive = some fb.id ∧ fb.downloaded = true) ∧
    (list.find? (fun m => m.downloaded) = none →
      refreshModels list active setActive = some active) ∧
    (∀ am, list.find? (fun m => m.id == active) = some am →
      am.downloaded = true →
      refreshModels list active setActive = some active) ∧
    (list.find? (fun m => m.id == active) = none →
      refreshModels list active setActive = some active) := by
  refine ⟨?_, ?_, ?_, ?_⟩
  · intro am fb ham hdl hfb
    have hp : fb.downloaded = true := List.find?_some hfb
    rw [refreshModels, ham, hfb]
    simp [hdl, hset]
    exact hp
  · intro hnone
    rw [refreshModels]
    cases ham : list.find? (fun m => m.id == active) with
    | none => rfl
    | some am =>
      cases hdl : am.downloaded with
      | false => rw [hnone]; simp [hdl]
      | true => simp [hdl]
  · intro am ham hdl
    rw [refreshModels, ham]
    simp [hdl]
  · intro hnone
    rw [refreshModels, hnone]

/-- C1 (witness): with an undownloaded active model "a" and a downloaded
model "b", `refreshModels` reassigns the active model to "b". -/
theorem refreshModels_fallback_witness :
    refreshModels [modelA, modelB] "a" (fun modelId => some modelId) = some "b" ∧
    modelB.downloaded = true :=
  (refreshModels_fallback [modelA, modelB] "a" (fun modelId => some modelId)
    (fun _ => rfl)).1 modelA modelB (by decide) (by decide) (by decide)

/-- C4: a `download-progress` event with `done = true` removes the tracked
entry for its model id (whether or not an error is reported), and a reported
(truthy, i.e. non-null non-empty) error is surfaced to the user; an event with
`done = false` sets the entry to the reported percent; and when the
`download_model` invocation fails, the entry created at the start of
`handleDownloadModel` is removed again, leaving the progress map as it was
before the call, with the invocation error surfaced. -/
theorem download_job_destroyed (m : List (String × Nat)) (e : DownloadProgressEvent) :
    (e.done = true →
      lookupProgress (applyDownloadEvent m e).progress e.modelId = none ∧
      (applyDownloadEvent m e).surfacedError
        = (if jsTruthy e.error then e.error else none) ∧
      (∀ err, e.error = some err → err ≠ "" →
        (applyDownloadEvent m e).surfacedError = some err)) ∧
    (e.done = false →
      lookupProgress (applyDownloadEvent m e).progress e.modelId = some e.percent ∧
      (applyDownloadEvent m e).surfacedError = none) ∧
    (∀ (t : String → String) (models : List ModelInfo)
        (mlxDeps : Option MlxDependencyStatus) (modelId err : String),
      lookupProgress m modelId = none →
      (((models.find? (fun item => item.id == modelId)).map ModelInfo.engine
          == some "mlx") &&
        !((mlxDeps.map MlxDependencyStatus.ready).getD false)) = false →
      (handleDownloadModel t models mlxDeps m modelId (some err)).progress = m ∧
      (handleDownloadModel t models mlxDeps m modelId (some err)).errorMsg = some err) := by
  refine ⟨?_, ?_, ?_⟩
  · intro h
    refine ⟨?_, ?_, ?_⟩
    · simp [applyDownloadEvent, h, lookupProgress_removeProgress]
    · simp [applyDownloadEvent, h]
    · intro err herr hne
      simp [applyDownloadEvent, h, herr, jsTruthy, hne]
  · intro h
    simp [applyDownloadEvent, h, lookupProgress_setProgress]
  · intro t models mlxDeps modelId err hnone hguard
    rw [handleDownloadModel]
    simp only [hguard]
    simp [removeProgress_setProgress m modelId 0 hnone]

/-- C4 (witness): a completed event with a truthy error removes the tracked
entry and surfaces the error; an in-progress event records its percent; a
failed invocation leaves an empty progress map empty. -/
theorem download_job_destroyed_witness :
    (lookupProgress (applyDownloadEvent [("x", 50)]
        ⟨"x", 100, true, some "boom"⟩).progress "x" = none ∧
      (applyDownloadEvent [("x", 50)] ⟨"x", 100, true, some "boom"⟩).surfacedError
        = some "boom") ∧
    (lookupProgress (applyDownloadEvent [] ⟨"y", 40, false, none⟩).progress "y"
        = some 40) ∧
    (handleDownloadModel (fun s => s) [modelA] none [] "a" (some "err")).progress = [] ∧
    (handleDownloadModel (fun s => s) [modelA] none [] "a" (some "err")).errorMsg
      = some "err" :=
  ⟨⟨((download_job_destroyed [("x", 50)] ⟨"x", 100, true, some "boom"⟩).1 rfl).1,
      ((download_job_destroyed [("x", 50)] ⟨"x", 100, true, some "boom"⟩).1 rfl).2.2
        "boom" rfl (by decide)⟩,
    ((download_job_destroyed [] ⟨"y", 40, false, none⟩).2.1 rfl).1,
    (download_job_destroyed [] ⟨"y", 40, false, none⟩).2.2 (fun s => s) [modelA]
      none "a" "err" rfl (by decide)⟩

/-- C5: every not-yet-downloaded model row renders the download/setup button
with the shared disabled flag, and that flag is true whenever the tracked
progress map is non-empty (in particular whenever some download is in
flight) — so no second download can be started while one is tracked. -/
theorem download_control_disabled_while_downloading
    (m : List (String × Nat)) (mlxAction : Option String) (modelsEditing : Bool)
    (activeModelId deleteConfirmId : Option String)
    (modelAction : Option (String × String)) (model : ModelInfo) :
    (model.downloaded = false →
      modelRowAction modelsEditing activeModelId deleteConfirmId modelAction m
          mlxAction model
        = RowAction.downloadBtn (downloadButtonDisabled m mlxAction)) ∧
    (m ≠ [] → downloadButtonDisabled m mlxAction = true) ∧
    (∀ modelId p, lookupProgress m modelId = some p →
      downloadButtonDisabled m mlxAction = true) := by
  refine ⟨?_, ?_, ?_⟩
  · intro h
    simp [modelRowAction, h]
  · intro h
    simp [downloadButtonDisabled, isAnyDownloading, h]
  · intro modelId p h
    have hne : m ≠ [] := by
      intro hnil
      rw [hnil] at h
      simp [lookupProgress] at h
    simp [downloadButtonDisabled, isAnyDownloading, hne]

/-- C5 (witness): with a download for "x" tracked, the download button of an
undownloaded model is rendered disabled. -/
theorem download_control_disabled_witness :
    (modelRowAction false none none none [("x", 10)] none modelA
      = RowAction.downloadBtn (downloadButtonDisabled [("x", 10)] none)) ∧
    downloadButtonDisabled [("x", 10)] none = true :=
  ⟨(download_control_disabled_while_downloading [("x", 10)] none false none none
      none modelA).1 rfl,
    (download_control_disabled_while_downloading [("x", 10)] none false none none
      none modelA).2.1 (by decide)⟩

/-- C6: a model row whose id equals the active model id never renders a
remove button (in the editing view of a downloaded model an "Active" pill is
shown instead), so `handleDeleteModel` is only reachable for non-active
models; and the spec-level `delete` on the active model id fails with
`ActiveModelInUse`. -/
theorem active_model_delete_guard (modelsEditing : Bool)
    (deleteConfirmId : Option String) (modelAction : Option (String × String))
    (m : List (String × Nat)) (mlxAction : Option String) (model : ModelInfo) :
    (model.downloaded = true → modelsEditing = true →
      modelRowAction modelsEditing (some model.id) deleteConfirmId modelAction m
          mlxAction model = RowAction.activePill) ∧
    (∀ c d, modelRowAction modelsEditing (some model.id) deleteConfirmId
        modelAction m mlxAction model ≠ RowAction.deleteBtn c d) ∧
    deleteModel (some model.id) model.id = Except.error RegistryError.ActiveModelInUse := by
  refine ⟨?_, ?_, ?_⟩
  · intro hd he
    simp [modelRowAction, hd, he]
  · intro c d
    by_cases hd : model.downloaded <;> by_cases he : modelsEditing <;>
      simp [modelRowAction, hd, he]
  · simp [deleteModel]

/-- C6 (witness): the editing row of the downloaded active model "b" renders
the "Active" pill and never a remove button, and deleting "b" while it is
active fails with `ActiveModelInUse`. -/
theorem active_model_delete_guard_witness :
    modelRowAction true (some modelB.id) none none [] none modelB
      = RowAction.activePill ∧
    deleteModel (some modelB.id) modelB.id
      = Except.error RegistryError.ActiveModelInUse :=
  ⟨(active_model_delete_guard true none none [] none modelB).1 rfl rfl,
    (active_model_delete_guard true none none [] none modelB).2.2⟩

/-- C7: every cloud model offered for activation has `downloaded = true` and
`localPath = null`, so the spec-level `activate` never fails with
`NotDownloaded` on a cloud model. -/
theorem cloud_models_always_downloaded (t : String → String) (model : ModelInfo)
    (h : model ∈ cloudModels t) :
    model.downloaded = true ∧ model.localPath = none ∧
    activateModel model = Except.ok model := by
  simp only [cloudModels, List.mem_cons, List.not_mem_nil, or_false] at h
  rcases h with rfl | rfl <;> exact ⟨rfl, rfl, rfl⟩

/-- C7 (witness): the first cloud model at the identity translation is
downloaded, has no local path, and activates successfully. -/
theorem cloud_models_always_downloaded_witness :
    cloudScribe.downloaded = true ∧ cloudScribe.localPath = none ∧
    activateModel cloudScribe = Except.ok cloudScribe :=
  cloud_models_always_downloaded (fun s => s) cloudScribe (by decide)

/-- C9: `handleStart` invokes `start_server` exactly when the parsed port is
an integer strictly between 0 and 65536; for every other parsed value it sets
the error "Port must be between 1 and 65535" and returns without invoking
`start_server`. -/
theorem gateway_start_port_guard (v : JsNumber) :
    (∀ n : Int, v = JsNumber.int n → 0 < n → n < 65536 →
      handleStart v = StartOutcome.invoked v) ∧
    (portValid v = false →
      handleStart v = StartOutcome.portError "Port must be between 1 and 65535") ∧
    (∀ w, handleStart v = StartOutcome.invoked w →
      w = v ∧ ∃ n : Int, v = JsNumber.int n ∧ 0 < n ∧ n < 65536) := by
  refine ⟨?_, ?_, ?_⟩
  · intro n hv h1 h2
    subst hv
    simp [handleStart, portValid, h1, h2]
  · intro h
    simp [handleStart, h]
  · intro w hw
    cases v with
    | int n =>
      by_cases hvalid : portValid (JsNumber.int n) = true
      · have hb := hvalid
        simp only [portValid, Bool.and_eq_true, decide_eq_true_eq] at hb
        rw [handleStart, if_pos hvalid] at hw
        cases hw
        exact ⟨rfl, n, rfl, hb.1, hb.2⟩
      · rw [handleStart, if_neg hvalid] at hw
        cases hw
    | nonInt =>
      rw [handleStart] at hw
      simp [portValid] at hw
    | nan =>
      rw [handleStart] at hw
      simp [portValid] at hw

/-- C9 (witness): port 8787 starts the server; port 0 and NaN set the port
error without starting it. -/
theorem gateway_start_port_guard_witness :
    handleStart (JsNumber.int 8787) = StartOutcome.invoked (JsNumber.int 8787) ∧
    handleStart (JsNumber.int 0)
      = StartOutcome.portError "Port must be between 1 and 65535" ∧
    handleStart JsNumber.nan
      = StartOutcome.portError "Port must be between 1 and 65535" :=
  ⟨(gateway_start_port_guard (JsNumber.int 8787)).1 8787 rfl (by decide) (by decide),
    (gateway_start_port_guard (JsNumber.int 0)).2.1 (by decide),
    (gateway_start_port_guard JsNumber.nan).2.1 rfl⟩

/-- C10: for a model whose engine is "mlx", when the MLX runtime is not ready
(`mlxDeps` null or `ready = false`), `handleDownloadModel` sets the
runtime-required error and returns without invoking `download_model` and
without touching the progress map. -/
theorem mlx_download_requires_runtime (t : String → String)
    (models : List ModelInfo) (mlxDeps : Option MlxDependencyStatus)
    (m : List (String × Nat)) (modelId : String) (invokeError : Option String)
    (hengine : (models.find? (fun item => item.id == modelId)).map ModelInfo.engine
      = some "mlx")
    (hready : (mlxDeps.map MlxDependencyStatus.ready).getD false = false) :
    handleDownloadModel t models mlxDeps m modelId invokeError
      = { progress := m, invoked := false, errorMsg := some (t "runtimeRequired") } := by
  simp [handleDownloadModel, hengine, hready]

/-- C10 (witness): downloading the MLX model "m" with no runtime status
reports the runtime-required error, does not invoke `download_model`, and
leaves the progress map empty. -/
theorem mlx_download_requires_runtime_witness :
    handleDownloadModel (fun s => s) [modelMlx] none [] "m" none
      = { progress := [], invoked := false, errorMsg := some "runtimeRequired" } :=
  mlx_download_requires_runtime (fun s => s) [modelMlx] none [] "m" none
    (by decide) rfl

end OpenSTT
